import Mathlib

/-!
Shallow embedding of the trivia-game notebook (`trivia_nocomments.ipynb`):
the question model and fetch pipeline (`get_questions`,
`Question.from_api_response`), the player model (`Player`, `add_score`,
`TriviaGame.add_player`), the leaderboard ranker (`insertion_sort`) and the
turn state machine of `TriviaGameGUI` (`next_player`, `submit_answer`).
Python lists become `List`, dictionaries with optional keys become `Option`
fields, raised exceptions become an explicit `PyError` outcome, and the call
to `random.shuffle` becomes an arbitrary permutation parameter.
-/

namespace Trivia

/-- Tag recording which Python class a player object was created from:
`Player` itself, or the subclasses `ChildPlayer` / `AdultPlayer`. -/
inductive PlayerClass
  | base
  | child
  | adult
  deriving DecidableEq, Repr

/-- Python class `Player`: `self.name = name`, `self.score = 0`.  The `cls`
field records the concrete (sub)class of the object; `ChildPlayer` and
`AdultPlayer` add only a class attribute `DEFAULT_DIFFICULTY`, no state. -/
structure Player where
  cls : PlayerClass
  name : String
  score : Nat
  deriving DecidableEq, Repr

/-- Class attribute `DEFAULT_DIFFICULTY`, `"easy"` on `ChildPlayer` and
`"medium"` on `AdultPlayer` (`Player` itself has none, hence `Option`). -/
def Player.default_difficulty (p : Player) : Option String :=
  match p.cls with
  | .base => none
  | .child => some ("easy")
  | .adult => some ("medium")

/-- Method `Player.add_score(self, points)`: `self.score += points`. -/
def Player.add_score (p : Player) (points : Nat) : Player :=
  { p with score := p.score + points }

/-- Constructor call `ChildPlayer(name)`. -/
def ChildPlayer (name : String) : Player := ⟨.child, name, 0⟩

/-- Constructor call `AdultPlayer(name)`. -/
def AdultPlayer (name : String) : Player := ⟨.adult, name, 0⟩

/-- Functional form of one execution of the inner `while` loop of
`insertion_sort` together with the final `players[j + 1] = key`: the loop
shifts every element with `players[j].score < key.score` one slot to the
right, walking leftward from the end of the already-sorted prefix, and drops
`key` in the hole it opened.  On the sorted-descending prefix the elements so
shifted are exactly the maximal suffix of strictly-lower scores, so the net
effect is: insert `key` immediately before the first element whose score is
strictly below `key.score`. -/
def insert_desc (key : Player) : List Player → List Player
  | [] => [key]
  | x :: xs => if x.score < key.score then key :: x :: xs else x :: insert_desc key xs

/-- Function `insertion_sort(players)`: the outer `for i in range(1, len(players))`
loop inserts each element in turn into the sorted prefix to its left;
as a fold, each element of the input is `insert_desc`-ed into the
accumulated sorted list, left to right. -/
def insertion_sort (players : List Player) : List Player :=
  players.foldl (fun acc key => insert_desc key acc) []

/-- Sorted by score, descending (non-increasing left to right). -/
def SortedDesc (l : List Player) : Prop :=
  l.Pairwise (fun a b => b.score ≤ a.score)

theorem insert_desc_perm (key : Player) (l : List Player) :
    List.Perm (insert_desc key l) (l ++ [key]) := by
  induction l with
  | nil => simp [insert_desc]
  | cons x xs ih =>
    by_cases h : x.score < key.score
    · simpa [insert_desc, h] using (List.perm_append_singleton key (x :: xs)).symm
    · simpa [insert_desc, h] using ih.cons x

theorem insert_desc_sorted (key : Player) (l : List Player) (hl : SortedDesc l) :
    SortedDesc (insert_desc key l) := by
  induction l with
  | nil => simp [insert_desc, SortedDesc]
  | cons x xs ih =>
    rcases List.pairwise_cons.mp hl with ⟨hx, hxs⟩
    by_cases h : x.score < key.score
    · have hstep : insert_desc key (x :: xs) = key :: x :: xs := by
        simp [insert_desc, h]
      rw [hstep]
      refine List.pairwise_cons.mpr ⟨?_, hl⟩
      intro b hb
      rcases List.mem_cons.mp hb with rfl | hb
      · exact Nat.le_of_lt h
      · exact le_trans (hx b hb) (Nat.le_of_lt h)
    · have hstep : insert_desc key (x :: xs) = x :: insert_desc key xs := by
        simp [insert_desc, h]
      rw [hstep]
      refine List.pairwise_cons.mpr ⟨?_, ih hxs⟩
      intro b hb
      have hb' : b ∈ xs ++ [key] := (insert_desc_perm key xs).mem_iff.mp hb
      rcases List.mem_append.mp hb' with hb' | hb'
      · exact hx b hb'
      · rcases List.mem_singleton.mp hb' with rfl
        exact Nat.le_of_not_lt h

theorem sortedDesc_head_bound (x : Player) (xs : List Player) (s : Nat)
    (hl : SortedDesc (x :: xs)) (hx : x.score < s) :
    (x :: xs).filter (fun p => p.score == s) = [] := by
  rw [List.filter_eq_nil_iff]
  intro a ha
  rcases List.pairwise_cons.mp hl with ⟨hbound, _⟩
  have hle : a.score ≤ x.score := by
    rcases List.mem_cons.mp ha with rfl | ha
    · exact le_refl _
    · exact hbound a ha
  have : a.score ≠ s := Nat.ne_of_lt (lt_of_le_of_lt hle hx)
  simpa using this

theorem insert_desc_filter (key : Player) (l : List Player) (s : Nat)
    (hl : SortedDesc l) :
    (insert_desc key l).filter (fun p => p.score == s) =
      l.filter (fun p => p.score == s) ++ if key.score == s then [key] else [] := by
  induction l with
  | nil => by_cases h : key.score = s <;> simp [insert_desc, h]
  | cons x xs ih =>
    rcases List.pairwise_cons.mp hl with ⟨hx, hxs⟩
    by_cases h : x.score < key.score
    · have hstep : insert_desc key (x :: xs) = key :: x :: xs := by
        simp [insert_desc, h]
      by_cases hks : key.score = s
      · have hempty : (x :: xs).filter (fun p => p.score == s) = [] :=
          sortedDesc_head_bound x xs s hl (hks ▸ h)
        rw [hstep, List.filter_cons, hempty]
        simp [hks]
      · rw [hstep, List.filter_cons]
        simp [hks]
    · have hstep : insert_desc key (x :: xs) = x :: insert_desc key xs := by
        simp [insert_desc, h]
      rw [hstep, List.filter_cons, List.filter_cons, ih hxs]
      by_cases hxe : x.score = s <;> simp [hxe]

theorem insertion_sort_go_sorted (l : List Player) :
    ∀ acc : List Player, SortedDesc acc →
      SortedDesc (l.foldl (fun acc key => insert_desc key acc) acc) := by
  induction l with
  | nil => intro acc hacc; simpa using hacc
  | cons x xs ih =>
    intro acc hacc
    exact ih (insert_desc x acc) (insert_desc_sorted x acc hacc)

theorem insertion_sort_go_perm (l : List Player) :
    ∀ acc : List Player,
      List.Perm (l.foldl (fun acc key => insert_desc key acc) acc) (acc ++ l) := by
  induction l with
  | nil => intro acc; simp
  | cons x xs ih =>
    intro acc
    have h1 := ih (insert_desc x acc)
    have h2 : List.Perm (insert_desc x acc ++ xs) ((acc ++ [x]) ++ xs) :=
      (insert_desc_perm x acc).append_right xs
    simpa using h1.trans (h2.trans (by simp))

theorem insertion_sort_go_filter (l : List Player) (s : Nat) :
    ∀ acc : List Player, SortedDesc acc →
      (l.foldl (fun acc key => insert_desc key acc) acc).filter (fun p => p.score == s) =
        acc.filter (fun p => p.score == s) ++ l.filter (fun p => p.score == s) := by
  induction l with
  | nil => intro acc hacc; simp
  | cons x xs ih =>
    intro acc hacc
    have hstep := insert_desc_filter x acc s hacc
    have := ih (insert_desc x acc) (insert_desc_sorted x acc hacc)
    rw [List.foldl_cons, this, hstep, List.filter_cons]
    by_cases hx : x.score = s <;> simp [hx]

theorem insertion_sort_sorted (l : List Player) : SortedDesc (insertion_sort l) :=
  insertion_sort_go_sorted l [] (List.Pairwise.nil)

theorem insertion_sort_perm (l : List Player) : List.Perm (insertion_sort l) l := by
  simpa using insertion_sort_go_perm l []

theorem insertion_sort_filter (l : List Player) (s : Nat) :
    (insertion_sort l).filter (fun p => p.score == s) =
      l.filter (fun p => p.score == s) := by
  simpa using insertion_sort_go_filter l s [] (List.Pairwise.nil)

/-- Literal transcription of the inner loop of `insertion_sort`:
`while j >= 0 and players[j].score < key.score: players[j + 1] = players[j];
j -= 1`.  The counter is stored as `jp1 = j + 1` so that Python's terminal
`j = -1` is 0.  The result is the shifted list together with the final
`j + 1` — the slot where the caller then stores `key`. -/
def shift_loop (key : Player) : List Player → Nat → List Player × Nat
  | arr, 0 => (arr, 0)
  | arr, j + 1 =>
    match arr.get? j with
    | some pj =>
      if pj.score < key.score then shift_loop key (arr.set (j + 1) pj) j
      else (arr, j + 1)
    | none => (arr, j + 1)

theorem shift_loop_length (key : Player) (jp1 : Nat) :
    ∀ arr : List Player, ((shift_loop key arr jp1).1).length = arr.length := by
  induction jp1 with
  | zero => intro arr; rfl
  | succ j ih =>
    intro arr
    cases hpj : arr[j]? with
    | none => simp [shift_loop, hpj]
    | some pj =>
      by_cases hcmp : pj.score < key.score
      · simp [shift_loop, hpj, hcmp, ih]
      · simp [shift_loop, hpj, hcmp]

/-- Literal transcription of the outer loop of `insertion_sort`:
`for i in range(1, len(players)): key = players[i]; j = i - 1;` then the
inner while loop, then `players[j + 1] = key`.  The list argument carries
the in-place mutations from one iteration to the next. -/
def insertion_sort_loop (arr : List Player) (i : Nat) : List Player :=
  if _h : i < arr.length then
    match arr.get? i with
    | some key =>
      insertion_sort_loop
        ((shift_loop key arr i).1.set (shift_loop key arr i).2 key) (i + 1)
    | none => arr
  else arr
termination_by arr.length - i
decreasing_by
  simp only [List.length_set, shift_loop_length]
  omega

/-- Statement-by-statement transcription of `insertion_sort(players)`: run
the outer loop from `i = 1`, then `return players` returns the mutated
list. -/
def insertion_sort_imperative (players : List Player) : List Player :=
  insertion_sort_loop players 1

theorem insert_desc_append_low (key pj : Player) (p : List Player)
    (hpj : pj.score < key.score) :
    insert_desc key (p ++ [pj]) = insert_desc key p ++ [pj] := by
  induction p with
  | nil => simp [insert_desc, hpj]
  | cons x xs ih =>
    by_cases hx : x.score < key.score
    · simp [insert_desc, hx]
    · simp [insert_desc, hx, ih]

theorem insert_desc_of_forall_ge (key : Player) (p : List Player)
    (hp : ∀ x ∈ p, ¬ x.score < key.score) :
    insert_desc key p = p ++ [key] := by
  induction p with
  | nil => simp [insert_desc]
  | cons x xs ih =>
    have hx := hp x (List.mem_cons_self x xs)
    simp [insert_desc, hx, ih (fun y hy => hp y (List.mem_cons_of_mem x hy))]

theorem shift_loop_spec (key : Player) (i : Nat) :
    ∀ arr : List Player, i < arr.length → SortedDesc (arr.take i) →
      (shift_loop key arr i).1.set (shift_loop key arr i).2 key =
        insert_desc key (arr.take i) ++ arr.drop (i + 1) := by
  induction i with
  | zero =>
    intro arr hi _
    cases arr with
    | nil => exact absurd hi (by simp)
    | cons a t => simp [shift_loop, insert_desc]
  | succ j ih =>
    intro arr hi hsorted
    have hj : j < arr.length := Nat.lt_of_succ_lt hi
    have hpj : arr[j]? = some arr[j] := List.getElem?_eq_getElem hj
    have htake1 : arr.take (j + 1) = arr.take j ++ [arr[j]] := by
      rw [← List.take_concat_get arr j hj]
      simp [List.concat_eq_append]
    by_cases hcmp : arr[j].score < key.score
    · have hstep : shift_loop key arr (j + 1) =
          shift_loop key (arr.set (j + 1) arr[j]) j := by
        simp [shift_loop, hpj, hcmp]
      rw [hstep]
      have htake : (arr.set (j + 1) arr[j]).take j = arr.take j :=
        List.take_set_of_lt _ _ (Nat.lt_succ_self j)
      have hsortedj : SortedDesc (arr.take j) := by
        have hss : arr.take j = (arr.take (j + 1)).take j := by
          rw [List.take_take, Nat.min_eq_left (Nat.le_succ j)]
        rw [hss]
        exact List.Pairwise.sublist (List.take_sublist _ _) hsorted
      rw [ih (arr.set (j + 1) arr[j]) (by simpa using hj)
        (by rw [htake]; exact hsortedj)]
      have hdrop : (arr.set (j + 1) arr[j]).drop (j + 1) =
          arr[j] :: arr.drop (j + 2) := by
        rw [List.drop_set, if_neg (by omega), Nat.sub_self,
          List.drop_eq_getElem_cons hi]
        rfl
      rw [htake, hdrop, htake1, insert_desc_append_low key _ _ hcmp]
      simp
    · have hstep : shift_loop key arr (j + 1) = (arr, j + 1) := by
        simp [shift_loop, hpj, hcmp]
      rw [hstep]
      have hall : ∀ x ∈ arr.take (j + 1), ¬ x.score < key.score := by
        intro x hx
        rw [htake1] at hx hsorted
        rcases List.pairwise_append.mp hsorted with ⟨_, _, hcross⟩
        rcases List.mem_append.mp hx with hx | hx
        · have hle : arr[j].score ≤ x.score :=
            hcross x hx _ (List.mem_singleton_self _)
          omega
        · rcases List.mem_singleton.mp hx with rfl
          exact hcmp
      rw [List.set_eq_take_cons_drop key hi, insert_desc_of_forall_ge key _ hall]
      simp

theorem insertion_sort_loop_spec (n : Nat) :
    ∀ (arr : List Player) (i : Nat), arr.length - i ≤ n → SortedDesc (arr.take i) →
      insertion_sort_loop arr i =
        (arr.drop i).foldl (fun acc key => insert_desc key acc) (arr.take i) := by
  induction n with
  | zero =>
    intro arr i hn _
    have hge : arr.length ≤ i := by omega
    rw [insertion_sort_loop, dif_neg (by omega), List.drop_eq_nil_of_le hge,
      List.take_of_length_le hge]
    rfl
  | succ n ih =>
    intro arr i hn hsorted
    by_cases h : i < arr.length
    · have hle : i + 1 ≤ arr.length := h
      have hkey : arr.get? i = some arr[i] := by
        rw [List.get?_eq_getElem?]
        exact List.getElem?_eq_getElem h
      have hunfold : insertion_sort_loop arr i =
          insertion_sort_loop
            ((shift_loop arr[i] arr i).1.set
              (shift_loop arr[i] arr i).2 arr[i]) (i + 1) := by
        rw [insertion_sort_loop, dif_pos h]
        simp only [hkey]
      have hspec := shift_loop_spec arr[i] i arr h hsorted
      rw [hunfold]
      rw [hspec]
      have hlentake : (insert_desc arr[i] (arr.take i)).length = i + 1 := by
        rw [(insert_desc_perm _ _).length_eq]
        simp [Nat.min_eq_left (Nat.le_of_lt h)]
        all_goals exact hle
      have htake2 : ((insert_desc arr[i] (arr.take i)) ++
            arr.drop (i + 1)).take (i + 1) = insert_desc arr[i] (arr.take i) :=
        List.take_left' hlentake
      have hdrop2 : ((insert_desc arr[i] (arr.take i)) ++
            arr.drop (i + 1)).drop (i + 1) = arr.drop (i + 1) :=
        List.drop_left' hlentake
      have hlen2 : ((insert_desc arr[i] (arr.take i)) ++
            arr.drop (i + 1)).length = arr.length := by
        rw [List.length_append, hlentake, List.length_drop]
        omega
      have hdropcons : arr.drop i = arr[i] :: arr.drop (i + 1) :=
        List.drop_eq_getElem_cons h
      rw [ih _ (i + 1) (by rw [hlen2]; omega)
          (by rw [htake2]; exact insert_desc_sorted _ _ hsorted),
        htake2, hdrop2, hdropcons, List.foldl_cons]
    · rw [insertion_sort_loop, dif_neg h,
        List.drop_eq_nil_of_le (Nat.le_of_not_lt h),
        List.take_of_length_le (Nat.le_of_not_lt h)]
      rfl

/-- The statement-by-statement transcription of `insertion_sort` computes
the same list as its functional rendering `insertion_sort`. -/
theorem insertion_sort_imperative_eq (l : List Player) :
    insertion_sort_imperative l = insertion_sort l := by
  cases l with
  | nil =>
    rw [insertion_sort_imperative, insertion_sort_loop, dif_neg (by simp)]
    rfl
  | cons x t =>
    have h := insertion_sort_loop_spec (x :: t).length (x :: t) 1 (by omega)
      (by simp [SortedDesc])
    rw [insertion_sort_imperative, h]
    rfl

/-- C1: `insertion_sort` orders players by score descending (every pair of
positions is non-increasing, so a strictly higher score always precedes a
strictly lower one), and it is stable: for each score value `s`, the
sub-sequence of players with score `s` is exactly the same, in the same
order, as in the input.  The statement-by-statement transcription of the
loop (`insertion_sort_imperative`) computes the same list.  The scenario
[Alice 3, Bob 5, Carol 3] sorts to [Bob 5, Alice 3, Carol 3], Alice staying
before Carol. -/
theorem C1_insertion_sort_descending_stable (l : List Player) (s : Nat) :
    SortedDesc (insertion_sort l) ∧
    (insertion_sort l).filter (fun p => p.score == s) =
      l.filter (fun p => p.score == s) ∧
    insertion_sort_imperative l = insertion_sort l ∧
    insertion_sort [⟨.base, "Alice", 3⟩, ⟨.base, "Bob", 5⟩, ⟨.base, "Carol", 3⟩] =
      [⟨.base, "Bob", 5⟩, ⟨.base, "Alice", 3⟩, ⟨.base, "Carol", 3⟩] :=
  ⟨insertion_sort_sorted l, insertion_sort_filter l s, insertion_sort_imperative_eq l,
    by decide⟩

/-- C8: the output of `insertion_sort` is a permutation of its input — the
multiset of players is preserved; likewise for the statement-by-statement
transcription of the loop. -/
theorem C8_insertion_sort_permutation (l : List Player) :
    List.Perm (insertion_sort l) l ∧
    (insertion_sort l : Multiset Player) = (l : Multiset Player) ∧
    List.Perm (insertion_sort_imperative l) l :=
  ⟨insertion_sort_perm l, Multiset.coe_eq_coe.mpr (insertion_sort_perm l),
    (insertion_sort_imperative_eq l).symm ▸ insertion_sort_perm l⟩

/-- One record of the provider's `results` array: the fields of
`question_data` that `Question.from_api_response` reads. -/
structure QuestionRecord where
  category : String
  question : String
  correct_answer : String
  incorrect_answers : List String
  deriving DecidableEq, Repr

/-- The parsed JSON body of a provider response.  `response_code` is read
with `.get(...)` (yields `None` when the field is missing, hence `Option`);
`results` is read with `['results']`, which raises `KeyError` when the field
is missing, hence also `Option` with the error realised at the access. -/
structure ApiResponse where
  response_code : Option Int
  results : Option (List QuestionRecord)
  deriving DecidableEq, Repr

/-- The Python exceptions arising in the modelled code. -/
inductive PyError
  | keyError (k : String)
  | indexError
  | valueError (msg : String)
  | requestException (msg : String)
  deriving DecidableEq, Repr

/-- Python `class Question`: category, question text, shuffled options and the
correct answer string. -/
structure Question where
  category : String
  question_text : String
  options : List String
  correct_answer : String
  deriving DecidableEq, Repr

/-- Static method `Question.from_api_response(api_response)`:
`question_data = api_response['results'][0]` (a `KeyError` when the field is
missing, an `IndexError` when the list is empty), then
`options = question_data['incorrect_answers'] + [question_data['correct_answer']]`,
`random.shuffle(options)`, and the `Question` is built with the original
correct-answer string.  The in-place `random.shuffle` is modelled by a
reordering function `shuffle` passed as a parameter; theorems quantify over
every `shuffle` that permutes its argument, which covers every outcome of
the random shuffle. -/
def Question.from_api_response (shuffle : List String → List String)
    (api_response : ApiResponse) : Except PyError Question :=
  match api_response.results with
  | none => .error (.keyError ("results"))
  | some results =>
    match results.get? 0 with
    | none => .error .indexError
    | some question_data =>
      .ok { category := question_data.category
            question_text := question_data.question
            options := shuffle (question_data.incorrect_answers ++ [question_data.correct_answer])
            correct_answer := question_data.correct_answer }

/-- Outcome of `rq.get(URL, params=params)` plus JSON parsing: either the
request raised a `requests` exception (connection failure and the like), or
a response arrived with the given HTTP status code and body. -/
inductive TransportResult
  | requestException (msg : String)
  | response (status : Nat) (body : ApiResponse)
  deriving DecidableEq, Repr

/-- Everything `get_questions` gives back to the world: the diagnostic lines
it printed, and either the value returned to the caller (`.ok`: a `Question`
or Python `None`) or an exception escaping uncaught (`.error`). -/
structure FetchResult where
  printed : List String
  result : Except PyError (Option Question)
  deriving Repr

/-- Function `get_questions(difficulty, amount=1, category=None, type="multiple")`,
with the network interaction abstracted into the `transport` argument.
`response.raise_for_status()` raises `HTTPError` (a subclass of
`RequestException`) when the status is 4xx or 5xx; together with connection
failures it is caught by `except rq.exceptions.RequestException`, which
prints `"Error fetching questions: ..."` and returns `None`.  A body whose
`response_code` differs from 0 (including a missing field, since `.get`
yields `None ≠ 0`) raises `ValueError("No questions available for the given
parameters.")`, caught by `except ValueError`, which prints
`"Data error: ..."` and returns `None`.  A `KeyError` or `IndexError` raised
inside `Question.from_api_response` matches neither `except` arm and escapes
to the caller. -/
def get_questions (shuffle : List String → List String)
    (transport : TransportResult) : FetchResult :=
  match transport with
  | .requestException msg =>
      ⟨["Error fetching questions: " ++ msg], .ok none⟩
  | .response status body =>
      if 400 ≤ status ∧ status < 600 then
        ⟨["Error fetching questions: HTTP status " ++ toString status], .ok none⟩
      else if body.response_code ≠ some 0 then
        ⟨["Data error: No questions available for the given parameters."], .ok none⟩
      else
        match Question.from_api_response shuffle body with
        | .ok q => ⟨[], .ok (some q)⟩
        | .error e => ⟨[], .error e⟩

theorem from_api_response_ok (shuffle : List String → List String)
    (api : ApiResponse) (question_data : QuestionRecord) (rest : List QuestionRecord)
    (hres : api.results = some (question_data :: rest)) :
    Question.from_api_response shuffle api =
      .ok { category := question_data.category
            question_text := question_data.question
            options := shuffle (question_data.incorrect_answers ++ [question_data.correct_answer])
            correct_answer := question_data.correct_answer } := by
  simp [Question.from_api_response, hres]

/-- C3: whenever the provider body has a first result record, parsing
succeeds and the built `Question` satisfies `correctAnswer ∈ options`,
`len(options) = len(incorrect_answers) + 1`, its options are a permutation
of the incorrect answers plus the single correct answer, and
`correctAnswer` is the record's original correct-answer string — for every
reordering the random shuffle may produce. -/
theorem C3_from_api_response_invariants (shuffle : List String → List String)
    (hshuffle : ∀ l : List String, List.Perm (shuffle l) l)
    (api : ApiResponse) (question_data : QuestionRecord) (rest : List QuestionRecord)
    (hres : api.results = some (question_data :: rest)) :
    Question.from_api_response shuffle api =
      .ok { category := question_data.category
            question_text := question_data.question
            options := shuffle (question_data.incorrect_answers ++ [question_data.correct_answer])
            correct_answer := question_data.correct_answer } ∧
    question_data.correct_answer ∈
      shuffle (question_data.incorrect_answers ++ [question_data.correct_answer]) ∧
    (shuffle (question_data.incorrect_answers ++ [question_data.correct_answer])).length =
      question_data.incorrect_answers.length + 1 ∧
    List.Perm (shuffle (question_data.incorrect_answers ++ [question_data.correct_answer]))
      (question_data.incorrect_answers ++ [question_data.correct_answer]) := by
  have hperm := hshuffle (question_data.incorrect_answers ++ [question_data.correct_answer])
  refine ⟨from_api_response_ok shuffle api question_data rest hres, ?_, ?_, hperm⟩
  · exact hperm.mem_iff.mpr (by simp)
  · simpa using hperm.length_eq

/-- A provider record used as sample input in witnesses. -/
def sampleRecord : QuestionRecord := ⟨"Cat", "Q", "A", ["B", "C"]⟩

/-- A well-formed provider body holding `sampleRecord`. -/
def sampleApi : ApiResponse := ⟨some 0, some [sampleRecord]⟩

/-- Witness for C3: the invariants hold concretely for `sampleApi` with the
identity permutation as the shuffle outcome. -/
theorem C3_witness :
    Question.from_api_response id sampleApi =
      .ok { category := "Cat", question_text := "Q", options := ["B", "C", "A"],
            correct_answer := "A" } ∧
    "A" ∈ ["B", "C", "A"] ∧
    (["B", "C", "A"] : List String).length = (["B", "C"] : List String).length + 1 ∧
    List.Perm ["B", "C", "A"] (["B", "C"] ++ ["A"]) :=
  C3_from_api_response_invariants id (fun l => List.Perm.refl l) sampleApi sampleRecord [] rfl

/-- A transport-level failure: the request raised a connection error. -/
def netFailTransport : TransportResult := .requestException ("connection refused")

/-- A clean 200 response whose body carries `response_code = 1`
("no results for these parameters"). -/
def noResultsTransport : TransportResult := .response 200 ⟨some 1, some []⟩

/-- Counterexample for C5: the claim says a transport failure yields a
`NetworkError`-kinded failure and a nonzero `response_code` yields a
`NoQuestionsAvailable`-kinded failure, distinguishable by the caller.  In
the code both `except` arms `return None`: on both inputs the caller
receives exactly the same value, `None`, so the two failure modes are not
distinguishable by the result. -/
theorem C5_counterexample :
    (get_questions id netFailTransport).result = .ok none ∧
    (get_questions id noResultsTransport).result = .ok none ∧
    (get_questions id netFailTransport).result = (get_questions id noResultsTransport).result :=
  ⟨rfl, rfl, rfl⟩

/-- C5 amended: `get_questions` does distinguish and catch the two failure
modes internally, but both return the same untyped `None` to the caller;
only the printed diagnostics differ (`"Error fetching questions: ..."` for
transport failures, `"Data error: ..."` for a nonzero `response_code`). -/
theorem C5_both_failure_modes_return_none (shuffle : List String → List String)
    (msg : String) (status status2 : Nat) (body body2 : ApiResponse)
    (hstatus : 400 ≤ status ∧ status < 600)
    (hstatus2 : ¬ (400 ≤ status2 ∧ status2 < 600))
    (hcode : body2.response_code ≠ some 0) :
    get_questions shuffle (.requestException msg) =
      ⟨["Error fetching questions: " ++ msg], .ok none⟩ ∧
    get_questions shuffle (.response status body) =
      ⟨["Error fetching questions: HTTP status " ++ toString status], .ok none⟩ ∧
    get_questions shuffle (.response status2 body2) =
      ⟨["Data error: No questions available for the given parameters."], .ok none⟩ := by
  refine ⟨rfl, ?_, ?_⟩
  · simp [get_questions, hstatus]
  · simp [get_questions, hstatus2, hcode]

/-- Witness for C5 amended: a connection failure, a 404, and a
`response_code = 1` body all return `None`, with the two distinct
diagnostics. -/
theorem C5_witness :
    get_questions id (.requestException ("connection refused")) =
      ⟨["Error fetching questions: connection refused"], .ok none⟩ ∧
    get_questions id (.response 404 ⟨some 0, some []⟩) =
      ⟨["Error fetching questions: HTTP status 404"], .ok none⟩ ∧
    get_questions id (.response 200 ⟨some 1, some []⟩) =
      ⟨["Data error: No questions available for the given parameters."], .ok none⟩ :=
  C5_both_failure_modes_return_none id ("connection refused") 404 200 ⟨some 0, some []⟩
    ⟨some 1, some []⟩ (by decide) (by decide) (by decide)

/-- A 200 response with `response_code = 0` whose body has no `results`
field at all. -/
def missingResultsTransport : TransportResult := .response 200 ⟨some 0, none⟩

/-- A 200 response with `response_code = 0` and an empty `results` list. -/
def emptyResultsTransport : TransportResult := .response 200 ⟨some 0, some []⟩

/-- C6 (code bug): on a success body (`response_code = 0`) whose `results`
field is missing or empty, `api_response['results'][0]` raises `KeyError`
or `IndexError`; the `except` clauses of `get_questions` catch only
`RequestException` and `ValueError`, so the exception escapes to the caller
instead of a `Question | None` result. -/
theorem C6_uncaught_exception_on_malformed_success :
    (get_questions id missingResultsTransport).result = .error (.keyError ("results")) ∧
    (get_questions id emptyResultsTransport).result = .error .indexError :=
  ⟨rfl, rfl⟩

/-- A provider record whose incorrect answers contain a duplicate string. -/
def dupRecord : QuestionRecord := ⟨"Cat", "Q", "B", ["A", "A"]⟩

/-- A well-formed provider body holding `dupRecord`. -/
def dupApi : ApiResponse := ⟨some 0, some [dupRecord]⟩

/-- The options of a parse result (empty list on an exception). -/
def parsedOptions : Except PyError Question → List String
  | .ok q => q.options
  | .error _ => []

/-- Counterexample for C9: nothing deduplicates the answers — a provider
record whose `incorrect_answers` repeat a string yields a `Question` whose
options are not pairwise distinct. -/
theorem C9_counterexample :
    parsedOptions (Question.from_api_response id dupApi) = ["A", "A", "B"] ∧
    ¬ (parsedOptions (Question.from_api_response id dupApi)).Nodup := by
  constructor
  · rfl
  · decide

/-- C9 amended: the options list is pairwise distinct provided the provider
record's answers (the incorrect answers together with the correct answer)
are pairwise distinct; the shuffle preserves distinctness, but the code
enforces nothing when the provider repeats an answer string. -/
theorem C9_options_nodup_of_distinct_answers (shuffle : List String → List String)
    (hshuffle : ∀ l : List String, List.Perm (shuffle l) l)
    (api : ApiResponse) (question_data : QuestionRecord) (rest : List QuestionRecord)
    (hres : api.results = some (question_data :: rest))
    (hnodup : (question_data.incorrect_answers ++ [question_data.correct_answer]).Nodup) :
    Question.from_api_response shuffle api =
      .ok { category := question_data.category
            question_text := question_data.question
            options := shuffle (question_data.incorrect_answers ++ [question_data.correct_answer])
            correct_answer := question_data.correct_answer } ∧
    (shuffle (question_data.incorrect_answers ++ [question_data.correct_answer])).Nodup := by
  have hperm := hshuffle (question_data.incorrect_answers ++ [question_data.correct_answer])
  exact ⟨from_api_response_ok shuffle api question_data rest hres,
    (hperm.nodup_iff).mpr hnodup⟩

/-- Witness for C9 amended: with the distinct answers of `sampleRecord` the
options come out pairwise distinct. -/
theorem C9_witness :
    Question.from_api_response id sampleApi =
      .ok { category := "Cat", question_text := "Q", options := ["B", "C", "A"],
            correct_answer := "A" } ∧
    (["B", "C", "A"] : List String).Nodup :=
  C9_options_nodup_of_distinct_answers id (fun l => List.Perm.refl l) sampleApi sampleRecord []
    rfl (by decide)

/-- Python `class TriviaGame`: `self.players = []`, `self.round = 1`. -/
structure TriviaGame where
  players : List Player
  round : Nat
  deriving DecidableEq, Repr

/-- The `TriviaGame()` constructor. -/
def TriviaGame.init : TriviaGame := ⟨[], 1⟩

/-- Method `TriviaGame.add_player(name, player_type)`: appends a `ChildPlayer` when
`player_type == "child"`, an `AdultPlayer` when `player_type == "adult"`;
any other string matches neither branch of the `if`/`elif` and the method
falls through, returning `None` with no mutation. -/
def TriviaGame.add_player (g : TriviaGame) (name player_type : String) : TriviaGame :=
  if player_type = "child" then { g with players := g.players ++ [ChildPlayer name] }
  else if player_type = "adult" then { g with players := g.players ++ [AdultPlayer name] }
  else g

/-- C10: for any `player_type` other than `"child"` and `"adult"`,
`add_player` returns normally and leaves the game unchanged — the players
list and the round counter are exactly as before (the invalid player is
silently dropped). -/
theorem C10_add_player_invalid_type_noop (g : TriviaGame) (name player_type : String)
    (hchild : player_type ≠ "child") (hadult : player_type ≠ "adult") :
    TriviaGame.add_player g name player_type = g := by
  simp [TriviaGame.add_player, hchild, hadult]

/-- Witness for C10: adding `"Dana"` with type `"robot"` to a fresh game
changes nothing. -/
theorem C10_witness : TriviaGame.add_player ⟨[], 1⟩ ("Dana") ("robot") = ⟨[], 1⟩ :=
  C10_add_player_invalid_type_noop ⟨[], 1⟩ ("Dana") ("robot") (by decide) (by decide)

/-- The game-state part of `TriviaGameGUI`: the owned `TriviaGame` (`self.game`),
the turn cursor `self.round_player_index`, and `self.current_question`.
Widget state (labels, buttons, the selected-option variable) lives in the
toolkit and is external. -/
structure GameState where
  game : TriviaGame
  round_player_index : Nat
  current_question : Question
  deriving DecidableEq, Repr

/-- The state update of `next_player(self)`:
`self.round_player_index = (self.round_player_index + 1) % len(self.game.players)`,
and when the new index is 0, `self.game.round += 1`.  The trailing
`self.ask_question()` only fetches and displays the next question — on a
successful fetch it changes neither scores nor index nor round, so it is
not part of this state update (its failure-skip path re-enters
`next_player` and is driven by the external fetch result). -/
def next_player (s : GameState) : GameState :=
  let idx := (s.round_player_index + 1) % s.game.players.length
  { s with round_player_index := idx,
           game := { s.game with
             round := if idx = 0 then s.game.round + 1 else s.game.round } }

theorem next_player_iterate (s : GameState) (k : Nat)
    (hidx : s.round_player_index < s.game.players.length) :
    (next_player^[k] s).round_player_index =
        (s.round_player_index + k) % s.game.players.length ∧
    (next_player^[k] s).game.round =
        s.game.round + (s.round_player_index + k) / s.game.players.length ∧
    (next_player^[k] s).game.players = s.game.players ∧
    (next_player^[k] s).current_question = s.current_question := by
  induction k with
  | zero =>
    refine ⟨?_, ?_, rfl, rfl⟩
    · simpa using (Nat.mod_eq_of_lt hidx).symm
    · simpa using Nat.div_eq_of_lt hidx
  | succ k ih =>
    obtain ⟨hi, hr, hp, hq⟩ := ih
    rw [Function.iterate_succ_apply']
    have hN : 0 < s.game.players.length := Nat.lt_of_le_of_lt (Nat.zero_le _) hidx
    refine ⟨?_, ?_, ?_, ?_⟩
    · show ((next_player^[k] s).round_player_index + 1) %
          (next_player^[k] s).game.players.length = _
      rw [hi, hp, Nat.mod_add_mod, Nat.add_assoc]
    · show (if ((next_player^[k] s).round_player_index + 1) %
            (next_player^[k] s).game.players.length = 0
          then (next_player^[k] s).game.round + 1
          else (next_player^[k] s).game.round) = _
      rw [hi, hr, hp, Nat.mod_add_mod]
      have hstep : s.round_player_index + (k + 1) = s.round_player_index + k + 1 := rfl
      have hsucc :
          (s.round_player_index + k + 1) / s.game.players.length =
            (s.round_player_index + k) / s.game.players.length +
              if s.game.players.length ∣ s.round_player_index + k + 1 then 1 else 0 :=
        Nat.succ_div _ _
      by_cases hmod : (s.round_player_index + k + 1) % s.game.players.length = 0
      · rw [if_pos hmod, hstep, hsucc, if_pos (Nat.dvd_iff_mod_eq_zero.mpr hmod)]
        omega
      · rw [if_neg hmod, hstep, hsucc,
          if_neg (fun h => hmod (Nat.dvd_iff_mod_eq_zero.mp h))]
        omega
    · show (next_player^[k] s).game.players = _
      exact hp
    · show (next_player^[k] s).current_question = _
      exact hq

/-- A reachable three-player state at round 1, index 0, used in scenarios. -/
def threePlayerState : GameState :=
  ⟨⟨[ChildPlayer ("P1"), ChildPlayer ("P2"), ChildPlayer ("P3")], 1⟩, 0,
   ⟨"Cat", "Q", ["A", "B"], "A"⟩⟩

/-- C2: one `next_player` sets the index to `(index + 1) mod N` and bumps the
round exactly when the new index is 0; `N` consecutive calls return the
index to its original value and increase the round by exactly 1; and from
`threePlayerState` (3 players, index 0, round 1), 7 calls end at index 1,
round 3. -/
theorem C2_next_player_rotation (s : GameState)
    (hidx : s.round_player_index < s.game.players.length) :
    (next_player s).round_player_index =
        (s.round_player_index + 1) % s.game.players.length ∧
    ((next_player s).game.round =
        if (s.round_player_index + 1) % s.game.players.length = 0
        then s.game.round + 1 else s.game.round) ∧
    (next_player^[s.game.players.length] s).round_player_index =
        s.round_player_index ∧
    (next_player^[s.game.players.length] s).game.round = s.game.round + 1 ∧
    (next_player^[7] threePlayerState).round_player_index = 1 ∧
    (next_player^[7] threePlayerState).game.round = 3 := by
  have hN : 0 < s.game.players.length := Nat.lt_of_le_of_lt (Nat.zero_le _) hidx
  obtain ⟨hi, hr, _, _⟩ := next_player_iterate s s.game.players.length hidx
  refine ⟨rfl, rfl, ?_, ?_, by decide, by decide⟩
  · rw [hi, Nat.add_mod_right, Nat.mod_eq_of_lt hidx]
  · rw [hr, Nat.add_div_right _ hN, Nat.div_eq_of_lt hidx]

/-- Witness for C2: the rotation law instantiated at `threePlayerState`. -/
theorem C2_witness :
    (next_player threePlayerState).round_player_index =
        (threePlayerState.round_player_index + 1) %
          threePlayerState.game.players.length ∧
    ((next_player threePlayerState).game.round =
        if (threePlayerState.round_player_index + 1) %
            threePlayerState.game.players.length = 0
        then threePlayerState.game.round + 1 else threePlayerState.game.round) ∧
    (next_player^[threePlayerState.game.players.length]
        threePlayerState).round_player_index =
      threePlayerState.round_player_index ∧
    (next_player^[threePlayerState.game.players.length] threePlayerState).game.round =
      threePlayerState.game.round + 1 ∧
    (next_player^[7] threePlayerState).round_player_index = 1 ∧
    (next_player^[7] threePlayerState).game.round = 3 :=
  C2_next_player_rotation threePlayerState (by decide)

/-- Python list indexing `xs[i]` with an `int` index: a non-negative index
must be below the length, a negative index counts from the end
(`xs[i]` is `xs[len(xs) + i]`), anything else raises `IndexError`
(here: `none`). -/
def pyGet {α : Type} (xs : List α) (i : Int) : Option α :=
  if 0 ≤ i then
    if i < (xs.length : Int) then xs.get? i.toNat else none
  else
    if 0 ≤ (xs.length : Int) + i then xs.get? ((xs.length : Int) + i).toNat else none

/-- The messagebox shown by one call of `submit_answer`, or the exception
escaping it uncaught. -/
inductive SubmitOutcome
  | warned
  | correct
  | wrong (correct_text : String)
  | raised (e : PyError)
  deriving DecidableEq, Repr

/-- Method `submit_answer(self)` with `selected` the value of the radio-button
variable (an arbitrary `int`: the widgets produce 0 when nothing is selected
and `1..len(options)` otherwise).  Line by line:
`player = self.game.players[self.round_player_index]` (an `IndexError` when
the cursor is out of range); `if selected_option == 0`, show a warning and
return with no state change; otherwise compare
`self.current_question.options[selected_option - 1]` (Python indexing, so an
index past the end raises `IndexError` while a negative one counts from the
end) with `correct_answer`; when they are equal, `player.add_score(1)`; when
not, `options.index(correct_answer)` is computed for the info box (a
`ValueError` when absent); finally `self.next_player()` advances the turn.
`update_leaderboard()` and the fetch inside `ask_question()` touch none of
the modelled state. -/
def submit_answer (s : GameState) (selected : Int) : SubmitOutcome × GameState :=
  match s.game.players.get? s.round_player_index with
  | none => (.raised .indexError, s)
  | some player =>
    if selected = 0 then (.warned, s)
    else
      match pyGet s.current_question.options (selected - 1) with
      | none => (.raised .indexError, s)
      | some chosen =>
        if chosen = s.current_question.correct_answer then
          let s1 : GameState := { s with game := { s.game with
            players := s.game.players.set s.round_player_index (player.add_score 1) } }
          (.correct, next_player s1)
        else
          match s.current_question.options.indexOf? s.current_question.correct_answer with
          | none => (.raised (.valueError ("is not in list")), s)
          | some correct_idx =>
            (.wrong (s.current_question.options.getD correct_idx ("")), next_player s)

/-- A reachable two-player state: Alice to move, question "Q" with options
["yes", "no"] and correct answer "yes". -/
def exState : GameState :=
  ⟨⟨[⟨.adult, "Alice", 0⟩, ⟨.adult, "Bob", 0⟩], 1⟩, 0, ⟨"Cat", "Q", ["yes", "no"], "yes"⟩⟩

/-- Counterexample for C4: `selected = -1` is outside `1..len(options)` and
nonzero, yet `submit_answer` does not reject it — Python negative indexing
reads `options[-2] = "yes"`, the answer is scored as correct, Alice's score
changes and the turn advances. -/
theorem C4_counterexample :
    (submit_answer exState (-1)).1 = .correct ∧
    (submit_answer exState (-1)).2 ≠ exState ∧
    (submit_answer exState (-1)).2.game.players =
      [⟨.adult, "Alice", 1⟩, ⟨.adult, "Bob", 0⟩] ∧
    (submit_answer exState (-1)).2.round_player_index = 1 := by
  refine ⟨rfl, ?_, rfl, rfl⟩
  decide

/-- C4 amended: only `selected = 0` is rejected as a recoverable validation
failure (a warning messagebox, no state change).  A selection whose
`options[selected - 1]` lookup falls off the list — `selected` above
`len(options)` or at/below `-len(options)`, since the code indexes at
`selected - 1` — is not a recoverable signal: it raises an uncaught
`IndexError` (the state is still unchanged), and a negative selection
within `-len(options)+1 .. -1` is scored via Python negative indexing and
can change state (see the counterexample at `selected = -1`). -/
theorem C4_submit_answer_zero_and_out_of_range (s : GameState) (selected : Int)
    (hidx : s.round_player_index < s.game.players.length) :
    submit_answer s 0 = (.warned, s) ∧
    ((s.current_question.options.length : Int) < selected →
      submit_answer s selected = (.raised .indexError, s)) ∧
    (selected < 0 → selected ≤ -(s.current_question.options.length : Int) →
      submit_answer s selected = (.raised .indexError, s)) := by
  have hplayer : s.game.players[s.round_player_index]? =
      some (s.game.players.get ⟨s.round_player_index, hidx⟩) :=
    List.getElem?_eq_getElem hidx
  refine ⟨?_, ?_, ?_⟩
  · simp [submit_answer, hplayer]
  · intro hsel
    have h0 : ¬ selected = 0 := by omega
    have hnone : pyGet s.current_question.options (selected - 1) = none := by
      have hge : (0 : Int) ≤ selected - 1 := by omega
      have hlt : ¬ selected - 1 < (s.current_question.options.length : Int) := by omega
      simp [pyGet, hge, hlt]
    simp [submit_answer, hplayer, h0, hnone]
  · intro hneg0 hsel
    have h0 : ¬ selected = 0 := by omega
    have hnone : pyGet s.current_question.options (selected - 1) = none := by
      have hge : ¬ (0 : Int) ≤ selected - 1 := by omega
      have hneg : ¬ (0 : Int) ≤ (s.current_question.options.length : Int) + (selected - 1) := by
        omega
      simp [pyGet, hge, hneg]
    simp [submit_answer, hplayer, h0, hnone]

/-- Witness for C4 amended: at `exState` (two options), selection 0 warns
and changes nothing; selections 9, -2 (= `-len(options)`, whose lookup is
`options[-3]`) and -9 raise `IndexError` and change nothing. -/
theorem C4_witness :
    submit_answer exState 0 = (.warned, exState) ∧
    submit_answer exState 9 = (.raised .indexError, exState) ∧
    submit_answer exState (-2) = (.raised .indexError, exState) ∧
    submit_answer exState (-9) = (.raised .indexError, exState) :=
  ⟨(C4_submit_answer_zero_and_out_of_range exState 9 (by decide)).1,
   (C4_submit_answer_zero_and_out_of_range exState 9 (by decide)).2.1 (by decide),
   (C4_submit_answer_zero_and_out_of_range exState (-2) (by decide)).2.2 (by decide)
     (by decide),
   (C4_submit_answer_zero_and_out_of_range exState (-9) (by decide)).2.2 (by decide)
     (by decide)⟩

/-- C7: for an in-range selection, `submit_answer` compares the option at
the selection's 1-based position with the correct answer: when they are
equal, exactly the current player's score is incremented by 1 (the players
list becomes `set` of the old list at the current index with the scored
player — every other entry untouched); when they differ, the players list —
and hence every score — is unchanged. -/
theorem C7_submit_answer_scoring (s : GameState) (selected : Int)
    (hidx : s.round_player_index < s.game.players.length)
    (h1 : 1 ≤ selected) (h2 : selected ≤ (s.current_question.options.length : Int)) :
    (s.current_question.options.get? (selected - 1).toNat =
        some s.current_question.correct_answer →
      (submit_answer s selected).1 = .correct ∧
      (submit_answer s selected).2.game.players =
        s.game.players.set s.round_player_index
          ((s.game.players.get ⟨s.round_player_index, hidx⟩).add_score 1)) ∧
    (s.current_question.options.get? (selected - 1).toNat ≠
        some s.current_question.correct_answer →
      (submit_answer s selected).2.game.players = s.game.players) := by
  have hplayer : s.game.players.get? s.round_player_index =
      some (s.game.players.get ⟨s.round_player_index, hidx⟩) :=
    List.get?_eq_get hidx
  have h0 : ¬ selected = 0 := by omega
  have hge : (0 : Int) ≤ selected - 1 := by omega
  have hlt : selected - 1 < (s.current_question.options.length : Int) := by omega
  have hpy : pyGet s.current_question.options (selected - 1) =
      s.current_question.options.get? (selected - 1).toNat := by
    simp [pyGet, hge, hlt]
  constructor
  · intro hc
    have hresult : submit_answer s selected =
        (.correct, next_player { s with game := { s.game with
          players := s.game.players.set s.round_player_index
            ((s.game.players.get ⟨s.round_player_index, hidx⟩).add_score 1) } }) := by
      unfold submit_answer
      rw [hplayer]
      simp only [if_neg h0, hpy, hc, if_pos rfl]
      simp
    rw [hresult]
    exact ⟨rfl, rfl⟩
  · intro hne
    have hnat : (selected - 1).toNat < s.current_question.options.length := by omega
    have hchosen : s.current_question.options.get? (selected - 1).toNat =
        some (s.current_question.options.get ⟨(selected - 1).toNat, hnat⟩) :=
      List.get?_eq_get hnat
    have hcne : ¬ s.current_question.options.get ⟨(selected - 1).toNat, hnat⟩ =
        s.current_question.correct_answer := by
      intro h
      exact hne (hchosen.trans (congrArg some h))
    unfold submit_answer
    rw [hplayer]
    simp only [if_neg h0, hpy, hchosen, if_neg hcne]
    cases s.current_question.options.indexOf? s.current_question.correct_answer <;> rfl

/-- Witness for C7: at `exState`, selecting 1 ("yes", the correct answer)
gives Alice exactly one point; the same follows for the wrong answer case by
the theorem at selection 2. -/
theorem C7_witness :
    ((submit_answer exState 1).1 = .correct ∧
      (submit_answer exState 1).2.game.players =
        exState.game.players.set exState.round_player_index
          ((exState.game.players.get ⟨exState.round_player_index, by decide⟩).add_score 1)) ∧
    (submit_answer exState 2).2.game.players = exState.game.players :=
  ⟨(C7_submit_answer_scoring exState 1 (by decide) (by decide) (by decide)).1 (by decide),
   (C7_submit_answer_scoring exState 2 (by decide) (by decide) (by decide)).2 (by decide)⟩

end Trivia
